import Mathlib

/-!
Shallow embedding of the object layer of the content-addressable store
implemented in libtig.py: the KVLM codec (kvlm_parse / kvlm_serialize),
the object store (object_read / object_write with the sharded path layout
built from repo_path / repo_dir / repo_file), the object model (the four
variants and the type-tag dispatch), and the construction protocol of
GitObject.  Byte strings are modelled as List Nat (one Nat per byte),
Python ints that can be -1 (bytes.find) as Int, and Python exceptions as
an explicit error type threaded through Except.
-/

deriving instance DecidableEq for Except

/-- Byte-string literal helper: the ASCII bytes of a Lean string. -/
def strB (s : String) : List Nat := s.data.map Char.toNat

/-- The Python exceptions and failure modes the embedded code can raise. -/
inductive PyErr where
  /-- AssertionError, from the blank-line assert in kvlm_parse. -/
  | assertError : PyErr
  /-- IndexError, from an out-of-bounds byte access raw[i]. -/
  | indexError : PyErr
  /-- ValueError, from int() applied to a non-decimal byte string. -/
  | valueError : PyErr
  /-- UnicodeDecodeError, from .decode("ascii") on a byte above 0x7f. -/
  | decodeError : PyErr
  /-- TypeError, e.g. calling a method with the wrong number of arguments
      or passing None where a path or bytes value is required. -/
  | typeError : PyErr
  /-- KeyError, from a mapping lookup of an absent key. -/
  | keyError : PyErr
  /-- Exception("Malformed object ...: bad length") in object_read. -/
  | corruptObject : PyErr
  /-- Exception("Unknown type ...") in object_read. -/
  | unknownType : PyErr
  /-- Exception("Not a directory ...") in repo_dir. -/
  | notADirectory : PyErr
  /-- MalformedObject, from the spec-modelled tree entry parser. -/
  | malformedObject : PyErr
  /-- Marker for exhausted fuel: the Python original would loop or recurse
      without bound on this input. -/
  | outOfFuel : PyErr
deriving DecidableEq, Repr

/-- First index of byte b in l, as an offset from the head of l. -/
def listIdx : List Nat → Nat → Option Nat
  | [], _ => none
  | a :: l, b => if a = b then some 0 else (listIdx l b).map (· + 1)

/-- Python bytes.find(b, start): first index of byte b at or after start,
-1 when absent; a negative start counts from the end, clamped at 0. -/
def bfind (l : List Nat) (b : Nat) (start : Int) : Int :=
  let s : Nat := if start < 0 then (l.length + start).toNat else start.toNat
  match listIdx (l.drop s) b with
  | some i => ((s + i : Nat) : Int)
  | none => -1

/-- Python index clamping for one slice bound on a list of length n. -/
def pyBound (n : Nat) (i : Int) : Nat :=
  if i < 0 then (n + i).toNat else min i.toNat n

/-- Python slice l[a:b] with full negative-index and clamping semantics. -/
def pySlice (l : List Nat) (a b : Int) : List Nat :=
  (l.take (pyBound l.length b)).drop (pyBound l.length a)

/-- Python slice l[a:] (to the end of the byte string). -/
def pySliceFrom (l : List Nat) (a : Int) : List Nat :=
  l.drop (pyBound l.length a)

/-- Python indexing l[i]: negative indices count from the end, and an
index outside the byte string raises IndexError. -/
def pyIndex (l : List Nat) (i : Int) : Except PyErr Nat :=
  let j : Int := if i < 0 then (l.length : Int) + i else i
  if h : 0 ≤ j ∧ j.toNat < l.length then .ok (l.get ⟨j.toNat, h.2⟩)
  else .error .indexError

/-- Python bytes.replace(b a b c, ...) specialised to replacing every
newline-space pair by a bare newline, leftmost first (kvlm_parse). -/
def replNlSpace : List Nat → List Nat
  | [] => []
  | 10 :: 32 :: rest => 10 :: replNlSpace rest
  | b :: rest => b :: replNlSpace rest

/-- Python bytes.replace specialised to replacing every newline by a
newline-space pair (kvlm_serialize). -/
def replNlToNlSpace : List Nat → List Nat
  | [] => []
  | 10 :: rest => 10 :: 32 :: replNlToNlSpace rest
  | b :: rest => b :: replNlToNlSpace rest

/-- Decimal value of a nonempty all-digit ASCII byte string. -/
def digitsVal : List Nat → Option Nat
  | [] => none
  | [d] => if 48 ≤ d ∧ d ≤ 57 then some (d - 48) else none
  | d :: rest =>
    if 48 ≤ d ∧ d ≤ 57 then (digitsVal rest).map (fun v => (d - 48) * 10 ^ rest.length + v)
    else none

/-- Python whitespace bytes stripped by int() around a decimal literal. -/
def isPyWs (b : Nat) : Bool := b = 32 ∨ b = 9 ∨ b = 10 ∨ b = 13 ∨ b = 11 ∨ b = 12

/-- Python int(s.decode("ascii")): decoding fails on a byte above 0x7f,
then surrounding whitespace is stripped, an optional sign consumed, and a
nonempty run of decimal digits converted; anything else is ValueError. -/
def pyInt (l : List Nat) : Except PyErr Int :=
  if l.all (· < 128) then
    match ((l.dropWhile isPyWs).reverse.dropWhile isPyWs).reverse with
    | [] => .error .valueError
    | c :: ds =>
      if c = 45 then
        match digitsVal ds with
        | some v => .ok (-(v : Int))
        | none => .error .valueError
      else if c = 43 then
        match digitsVal ds with
        | some v => .ok (v : Int)
        | none => .error .valueError
      else
        match digitsVal (c :: ds) with
        | some v => .ok (v : Int)
        | none => .error .valueError
  else .error .decodeError

/-! ## The KVLM mapping

kvlm_parse builds a collections.OrderedDict whose keys are byte strings
plus the distinguished None key for the message, and whose values are
either a plain byte string or a Python list of byte strings.  The mapping
is modelled as an insertion-ordered association list; the two runtime
shapes of a value (bytes vs list) are the two constructors of KvVal,
mirroring the type(dct[key]) == list check. -/

/-- A KVLM value slot: a plain byte string or a list of byte strings. -/
inductive KvVal where
  | one : List Nat → KvVal
  | many : List (List Nat) → KvVal
deriving DecidableEq, Repr

/-- Insertion-ordered mapping from key (none is the message slot) to
value, as built by collections.OrderedDict. -/
abbrev Kvlm := List (Option (List Nat) × KvVal)

/-- OrderedDict lookup. -/
def odLookup (d : Kvlm) (k : Option (List Nat)) : Option KvVal :=
  match d with
  | [] => none
  | (k', v) :: rest => if k' = k then some v else odLookup rest k

/-- OrderedDict assignment: update in place when the key is present
(keeping its position), append at the end otherwise. -/
def odSet (d : Kvlm) (k : Option (List Nat)) (v : KvVal) : Kvlm :=
  match d with
  | [] => [(k, v)]
  | (k', v') :: rest =>
    if k' = k then (k', v) :: rest else (k', v') :: odSet rest k v

/-- The repeated-key insertion of kvlm_parse: an existing list value gets
the new value appended, an existing plain value is promoted to a
two-element list, an absent key is inserted fresh at the end. -/
def kvlmInsert (d : Kvlm) (k : List Nat) (v : List Nat) : Kvlm :=
  match odLookup d (some k) with
  | some (.many vs) => odSet d (some k) (.many (vs ++ [v]))
  | some (.one v0) => odSet d (some k) (.many [v0, v])
  | none => d ++ [(some k, .one v)]

/-- The continuation scan of kvlm_parse (the while True loop): repeatedly
advance end to the next newline and stop when the byte after it is not a
space.  The byte access raw[end + 1] is Python indexing and raises
IndexError past the end of the buffer; when no further newline exists the
find returns -1 and the access reads raw[0], which can loop forever, so
the scan is fuelled. -/
def kvlmScanEnd (fuel : Nat) (raw : List Nat) (e : Int) : Except PyErr Int :=
  match fuel with
  | 0 => .error .outOfFuel
  | fuel + 1 =>
    let e2 := bfind raw 10 (e + 1)
    match pyIndex raw (e2 + 1) with
    | .error err => .error err
    | .ok b => if b ≠ 32 then .ok e2 else kvlmScanEnd fuel raw e2

/-- The body of kvlm_parse: find the next space and newline from start;
a newline at or before the space means the blank line has been reached
(the assert demands it sits exactly at the cursor) and the rest of the
buffer past it becomes the message under the None key; otherwise read a
key, scan for the end of the (possibly continued) value, strip the
continuation prefixes, insert, and recurse past the terminating newline. -/
def kvlmParseGo (fuel : Nat) (raw : List Nat) (start : Int) (dct : Kvlm) :
    Except PyErr Kvlm :=
  match fuel with
  | 0 => .error .outOfFuel
  | fuel + 1 =>
    let spc := bfind raw 32 start
    let nl := bfind raw 10 start
    if spc < 0 ∨ nl < spc then
      if nl = start then .ok (odSet dct none (.one (pySliceFrom raw (start + 1))))
      else .error .assertError
    else
      let key := pySlice raw start spc
      match kvlmScanEnd fuel raw start with
      | .error e => .error e
      | .ok en =>
        let value := replNlSpace (pySlice raw (spc + 1) en)
        kvlmParseGo fuel raw (en + 1) (kvlmInsert dct key value)

/-- kvlm_parse(raw) from the top: cursor 0, fresh OrderedDict; the fuel
raw.length + 2 covers every terminating run, since each parsed field
consumes at least one byte of the buffer. -/
def kvlm_parse (raw : List Nat) : Except PyErr Kvlm :=
  kvlmParseGo (raw.length + 2) raw 0 []

/-- The per-value emission of kvlm_serialize: key, space, value with each
newline re-prefixed by a space, newline. -/
def kvlmEmitOne (k : List Nat) (v : List Nat) : List Nat :=
  k ++ 32 :: (replNlToNlSpace v ++ [10])

/-- The loop body of kvlm_serialize as written in the source: iterate the
keys in insertion order, skip the None key, emit every element of the
(list-normalised) value, then — still inside the loop body — append the
blank line, the message looked up at kvlm[None] (KeyError when absent,
TypeError when it is a list, since bytes and list do not concatenate) and
a trailing newline, and return.  A mapping with no non-None key falls off
the loop and returns Python None. -/
def kvlmSerializeLoop (orig : Kvlm) : Kvlm → List Nat →
    Except PyErr (Option (List Nat))
  | [], _ => .ok none
  | (none, _) :: rest, ret => kvlmSerializeLoop orig rest ret
  | (some k, v) :: _, ret =>
    let vs := match v with | .one b => [b] | .many bs => bs
    let ret := ret ++ (vs.foldl (fun acc b => acc ++ kvlmEmitOne k b) [])
    match odLookup orig none with
    | none => .error .keyError
    | some (.many _) => .error .typeError
    | some (.one msg) => .ok (some (ret ++ 10 :: (msg ++ [10])))

/-- kvlm_serialize(kvlm) as written in the source: the message append and
the return statement sit inside the for loop over the keys, so the first
non-None key ends the serialization. -/
def kvlm_serialize (kvlm : Kvlm) : Except PyErr (Option (List Nat)) :=
  kvlmSerializeLoop kvlm kvlm []

/-! ## The object model

The four variants of the tagged union.  GitBlob is taken from the source;
the GitCommit, GitTree and GitTag classes are referenced by object_read
and object_hash but their definitions are missing from the file, so their
deserializers are modelled from the spec: commit and tag delegate to the
KVLM codec, tree parses the binary mode/name/digest entry list. -/

/-- A tree entry: mode bytes, name bytes, 20 raw digest bytes. -/
abbrev TreeEntry := List Nat × List Nat × List Nat

/-- The typed payload of a fully constructed object. -/
inductive Obj where
  | blob : List Nat → Obj
  | commit : Kvlm → Obj
  | tree : List TreeEntry → Obj
  | tag : Kvlm → Obj
deriving DecidableEq, Repr

/-- The four variant classes, as selected by the match on the type tag. -/
inductive Variant where
  | blob | commit | tree | tag
deriving DecidableEq, Repr

/-- Split a byte string at the first occurrence of byte b, dropping b. -/
def splitByte (b : Nat) : List Nat → Option (List Nat × List Nat)
  | [] => none
  | a :: l =>
    if a = b then some ([], l)
    else (splitByte b l).map (fun p => (a :: p.1, p.2))

/-- Modelled from the spec: the GitTree class is absent from the source,
so its deserializer follows §4.2 — parse a sequence of
mode, space, name, NUL, 20 raw digest bytes until the buffer is
exhausted, failing with MalformedObject on any truncated entry. -/
def treeParseGo : Nat → List Nat → Except PyErr (List TreeEntry)
  | _, [] => .ok []
  | 0, _ :: _ => .error .outOfFuel
  | fuel + 1, l =>
    match splitByte 32 l with
    | none => .error .malformedObject
    | some (mode, rest) =>
      match splitByte 0 rest with
      | none => .error .malformedObject
      | some (name, rest2) =>
        if 20 ≤ rest2.length then
          (treeParseGo fuel (rest2.drop 20)).map
            (fun es => (mode, name, rest2.take 20) :: es)
        else .error .malformedObject

/-- Tree deserializer entry point (fuel bounded by the buffer length,
which shrinks by at least 21 bytes per entry). -/
def treeParse (data : List Nat) : Except PyErr (List TreeEntry) :=
  treeParseGo data.length data

/-- A Python method with its count of required positional parameters
besides self; calling it with a different number of arguments raises
TypeError before the body runs. -/
structure PyMethod (α β : Type) where
  extraParams : Nat
  body : List α → Except PyErr β

/-- Python method call: arity check, then the body. -/
def callMethod {α β : Type} (m : PyMethod α β) (args : List α) :
    Except PyErr β :=
  if args.length = m.extraParams then m.body args else .error .typeError

/-- The deserialize method of each variant class.  GitBlob.deserialize
(from the source) stores the bytes as the blob payload; the other three
are modelled from the spec since their classes are missing from the
source: commit and tag delegate to the KVLM codec, tree to the binary
entry parser.  Each takes the one data parameter. -/
def variantDeserialize : Variant → PyMethod (List Nat) Obj
  | .blob => ⟨1, fun args => .ok (.blob (args.headD []))⟩
  | .commit => ⟨1, fun args => (kvlm_parse (args.headD [])).map .commit⟩
  | .tag => ⟨1, fun args => (kvlm_parse (args.headD [])).map .tag⟩
  | .tree => ⟨1, fun args => (treeParse (args.headD [])).map .tree⟩

/-- GitObject.init as declared in the source: def init(self, data) — one
required positional parameter, body pass.  None of the variant classes
overrides it. -/
def gitObjectInitMethod : PyMethod (List Nat) Unit := ⟨1, fun _ => .ok ()⟩

/-- The state of a constructed object: deserialized with a payload, or
left bare by the init path (whose body is pass). -/
inductive ObjState where
  | uninit : Variant → ObjState
  | ready : Obj → ObjState
deriving DecidableEq, Repr

/-- GitObject.__init__(self, data=None): with data supplied it calls
self.deserialize(data); with data absent it calls self.init() with no
argument, although init declares a required data parameter. -/
def gitObjectNew (v : Variant) (data : Option (List Nat)) :
    Except PyErr ObjState :=
  match data with
  | some d => (callMethod (variantDeserialize v) [d]).map .ready
  | none => (callMethod gitObjectInitMethod []).map (fun _ => .uninit v)

/-- The type tag fmt of each variant class. -/
def variantFmt : Variant → List Nat
  | .blob => strB "blob"
  | .commit => strB "commit"
  | .tree => strB "tree"
  | .tag => strB "tag"

/-- The header-parse, length-check and dispatch part of object_read
(everything after zlib decompression): find the space, slice the type
tag, find the NUL from the space, int-decode the slice between them,
reject on a declared-length mismatch, then match the tag against the
four known byte strings and construct the matching variant from the
payload, or fail on an unknown tag. -/
def object_read_raw (raw : List Nat) : Except PyErr ObjState :=
  let x := bfind raw 32 0
  let fmt := pySlice raw 0 x
  let y := bfind raw 0 x
  match pyInt (pySlice raw x y) with
  | .error e => .error e
  | .ok size =>
    if size ≠ (raw.length : Int) - y - 1 then .error .corruptObject
    else
      if fmt = strB "commit" then gitObjectNew .commit (some (pySliceFrom raw (y + 1)))
      else if fmt = strB "tree" then gitObjectNew .tree (some (pySliceFrom raw (y + 1)))
      else if fmt = strB "tag" then gitObjectNew .tag (some (pySliceFrom raw (y + 1)))
      else if fmt = strB "blob" then gitObjectNew .blob (some (pySliceFrom raw (y + 1)))
      else .error .unknownType

/-! ## SHA-1

hashlib.sha1(result).hexdigest() in object_write.  Machine words are Nat
reduced mod 2^32 at every operation that can overflow. -/

/-- 32-bit left rotation. -/
def rotl32 (n x : Nat) : Nat :=
  ((x <<< n) ||| (x >>> (32 - n))) % 4294967296

/-- SHA-1 padding: the 0x80 byte, zeros to 56 mod 64, and the 64-bit
big-endian bit length of the message. -/
def sha1Pad (m : List Nat) : List Nat :=
  let zeros := (64 + 56 - ((m.length + 1) % 64)) % 64
  let bitLen := m.length * 8
  m ++ 128 :: (List.replicate zeros 0 ++
    [bitLen / 2 ^ 56 % 256, bitLen / 2 ^ 48 % 256, bitLen / 2 ^ 40 % 256,
     bitLen / 2 ^ 32 % 256, bitLen / 2 ^ 24 % 256, bitLen / 2 ^ 16 % 256,
     bitLen / 2 ^ 8 % 256, bitLen % 256])

/-- Split a padded message into 64-byte blocks (fuel bounded). -/
def chunk64 : Nat → List Nat → List (List Nat)
  | _, [] => []
  | 0, l => [l]
  | fuel + 1, l => l.take 64 :: chunk64 fuel (l.drop 64)

/-- Pack bytes into big-endian 32-bit words. -/
def words32 : List Nat → List Nat
  | b0 :: b1 :: b2 :: b3 :: rest =>
    (b0 * 2 ^ 24 + b1 * 2 ^ 16 + b2 * 2 ^ 8 + b3) :: words32 rest
  | _ => []

/-- Message-schedule expansion, building the 80 words in reverse: each
new word is the 1-rotation of the xor of the words 3, 8, 14 and 16 back. -/
def sha1Expand : Nat → List Nat → List Nat
  | 0, rev => rev
  | n + 1, rev =>
    sha1Expand n
      (rotl32 1 (rev.getD 2 0 ^^^ rev.getD 7 0 ^^^ rev.getD 13 0 ^^^ rev.getD 15 0) :: rev)

/-- One SHA-1 round: the round-dependent boolean function and constant,
then the register rotation. -/
def sha1Round (st : Nat × Nat × Nat × Nat × Nat) (tw : Nat × Nat) :
    Nat × Nat × Nat × Nat × Nat :=
  let (a, b, c, d, e) := st
  let (t, w) := tw
  let f :=
    if t < 20 then (b &&& c) ||| ((4294967295 - b) &&& d)
    else if t < 40 then b ^^^ c ^^^ d
    else if t < 60 then (b &&& c) ||| (b &&& d) ||| (c &&& d)
    else b ^^^ c ^^^ d
  let k :=
    if t < 20 then 1518500249
    else if t < 40 then 1859775393
    else if t < 60 then 2400959708
    else 3395469782
  ((rotl32 5 a + f + e + k + w) % 4294967296, a, rotl32 30 b, c, d)

/-- Compress one 64-byte block into the running state. -/
def sha1Block (h : Nat × Nat × Nat × Nat × Nat) (block : List Nat) :
    Nat × Nat × Nat × Nat × Nat :=
  let w80 := (sha1Expand 64 (words32 block).reverse).reverse
  let (h0, h1, h2, h3, h4) := h
  let (a, b, c, d, e) :=
    ((List.range 80).zip w80).foldl sha1Round (h0, h1, h2, h3, h4)
  ((h0 + a) % 4294967296, (h1 + b) % 4294967296, (h2 + c) % 4294967296,
   (h3 + d) % 4294967296, (h4 + e) % 4294967296)

/-- Big-endian bytes of a 32-bit word. -/
def wordBytes (w : Nat) : List Nat :=
  [w / 2 ^ 24 % 256, w / 2 ^ 16 % 256, w / 2 ^ 8 % 256, w % 256]

/-- SHA-1 digest of a byte string, as 20 bytes. -/
def sha1 (m : List Nat) : List Nat :=
  let padded := sha1Pad m
  let (h0, h1, h2, h3, h4) :=
    (chunk64 padded.length padded).foldl sha1Block
      (1732584193, 4023233417, 2562383102, 271733878, 3285377520)
  wordBytes h0 ++ wordBytes h1 ++ wordBytes h2 ++ wordBytes h3 ++ wordBytes h4

/-- ASCII code of the lowercase hex digit of a nibble. -/
def hexDigit (n : Nat) : Nat := if n < 10 then 48 + n else 87 + n

/-- Lowercase hex rendering of a byte string, as ASCII bytes. -/
def hexBytes : List Nat → List Nat
  | [] => []
  | b :: rest => hexDigit (b / 16) :: hexDigit (b % 16) :: hexBytes rest

/-- hashlib.sha1(m).hexdigest(): 40 lowercase hex characters. -/
def sha1Hex (m : List Nat) : List Nat := hexBytes (sha1 m)

/-! ## The filesystem and the sharded object store

A filesystem is a finite map from paths (component lists) to file
contents together with the set of existing directories; directories are
explicit because repo_dir checks os.path.isdir and os.makedirs creates
intermediate directories. -/

/-- A filesystem path, as a list of byte-string components. -/
abbrev FPath := List (List Nat)

/-- Filesystem state: files with their contents, and directories. -/
structure FS where
  files : List (FPath × List Nat)
  dirs : List FPath
deriving DecidableEq, Repr

/-- os.path.isfile. -/
def FS.isFile (fs : FS) (p : FPath) : Bool := fs.files.any (fun e => e.1 = p)

/-- os.path.isdir. -/
def FS.isDir (fs : FS) (p : FPath) : Bool := fs.dirs.any (fun q => q = p)

/-- os.path.exists. -/
def FS.pathExists (fs : FS) (p : FPath) : Bool := fs.isFile p || fs.isDir p

/-- Content of the file at p, when present. -/
def FS.lookupFile (fs : FS) (p : FPath) : Option (List Nat) :=
  (fs.files.find? (fun e => e.1 = p)).map (fun e => e.2)

/-- The nonempty prefixes of a path, shortest first. -/
def pathAncestors : FPath → List FPath
  | [] => []
  | a :: rest => [a] :: (pathAncestors rest).map (fun q => a :: q)

/-- os.makedirs: create the directory and every missing ancestor. -/
def FS.makedirs (fs : FS) (p : FPath) : FS :=
  { fs with dirs := fs.dirs ++ (pathAncestors p).filter (fun q => !(fs.isDir q)) }

/-- A repository handle: only the gitdir matters to the object store. -/
structure Repo where
  gitdir : FPath
deriving DecidableEq, Repr

/-- repo_path(repo, *path): os.path.join under the gitdir. -/
def repo_path (r : Repo) (p : List (List Nat)) : FPath := r.gitdir ++ p

/-- repo_dir(repo, *path, mkdir): return the path when it exists as a
directory, raise when it exists as something else, create it (with
ancestors) and return it under mkdir, and return None otherwise. -/
def repo_dir (r : Repo) (p : List (List Nat)) (mkdir : Bool) (fs : FS) :
    Except PyErr (Option FPath × FS) :=
  let full := repo_path r p
  if fs.pathExists full then
    if fs.isDir full then .ok (some full, fs) else .error .notADirectory
  else if mkdir then .ok (some full, fs.makedirs full)
  else .ok (none, fs)

/-- repo_file(repo, *path, mkdir): ensure the parent directory via
repo_dir and return the full path, or fall through to Python None when
the parent is absent and mkdir is off. -/
def repo_file (r : Repo) (p : List (List Nat)) (mkdir : Bool) (fs : FS) :
    Except PyErr (Option FPath × FS) :=
  match repo_dir r p.dropLast mkdir fs with
  | .error e => .error e
  | .ok (some _, fs') => .ok (some (repo_path r p), fs')
  | .ok (none, fs') => .ok (none, fs')

/-- Modelled from the spec: zlib.compress is an external library call and
no claim depends on the compressed byte content — only on which paths
hold files — so compression is modelled as an injective byte encoding,
the identity. -/
def zlibCompress (b : List Nat) : List Nat := b

/-- Modelled from the spec: zlib.decompress, the inverse of the
compression model above. -/
def zlibDecompress (b : List Nat) : List Nat := b

/-- The fmt tag of an object, from its variant class. -/
def objFmt : Obj → List Nat
  | .blob _ => strB "blob"
  | .commit _ => strB "commit"
  | .tree _ => strB "tree"
  | .tag _ => strB "tag"

/-- Byte-wise order on byte strings, for the canonical tree ordering. -/
def bytesLe (a b : List Nat) : Bool :=
  match a, b with
  | [], _ => true
  | _ :: _, [] => false
  | x :: a', y :: b' => if x < y then true else if y < x then false else bytesLe a' b'

/-- Modelled from the spec: the tree sort key — the entry name, with
subdirectory entries (tree mode) compared as if the name carried a
trailing path separator (§3; flagged in §9 as a design assumption). -/
def treeSortKey (e : TreeEntry) : List Nat :=
  if e.1 = strB "40000" ∨ e.1 = strB "040000" then e.2.1 ++ [47] else e.2.1

/-- Insertion into a list sorted by the tree sort key. -/
def treeInsert (e : TreeEntry) : List TreeEntry → List TreeEntry
  | [] => [e]
  | e' :: rest =>
    if bytesLe (treeSortKey e) (treeSortKey e') then e :: e' :: rest
    else e' :: treeInsert e rest

/-- Modelled from the spec: tree serialization (the GitTree class is
absent from the source) — sort the entries by the §3 tie-break rule and
emit mode, space, name, NUL, 20 raw digest bytes for each. -/
def treeSerialize (es : List TreeEntry) : List Nat :=
  (es.foldl (fun acc e => treeInsert e acc) []).foldl
    (fun acc e => acc ++ e.1 ++ 32 :: (e.2.1 ++ 0 :: e.2.2)) []

/-- The serialize method of each variant: GitBlob.serialize (source)
returns the stored payload; commit and tag (classes modelled from the
spec) delegate to the source KVLM codec, where a serializer that falls
off its loop returns Python None and the later len(None) call raises
TypeError; tree is the spec-modelled binary emitter. -/
def serializeObj : Obj → Except PyErr (List Nat)
  | .blob d => .ok d
  | .commit kv =>
    match kvlm_serialize kv with
    | .ok (some b) => .ok b
    | .ok none => .error .typeError
    | .error e => .error e
  | .tag kv =>
    match kvlm_serialize kv with
    | .ok (some b) => .ok b
    | .ok none => .error .typeError
    | .error e => .error e
  | .tree es => .ok (treeSerialize es)

/-- object_write(obj, repo): serialize, prepend the canonical header,
hash the whole; without a repo return the digest with no filesystem
effect; with a repo resolve the sharded path creating directories, and
write the compressed bytes only when the path does not already exist. -/
def object_write (obj : Obj) (repo : Option Repo) (fs : FS) :
    Except PyErr (List Nat × FS) :=
  match serializeObj obj with
  | .error e => .error e
  | .ok data =>
    let result := objFmt obj ++ 32 :: (strB (toString data.length) ++ 0 :: data)
    let sha := sha1Hex result
    match repo with
    | none => .ok (sha, fs)
    | some r =>
      match repo_file r [strB "objects", sha.take 2, sha.drop 2] true fs with
      | .error e => .error e
      | .ok (none, _) => .error .typeError
      | .ok (some path, fs') =>
        if fs'.pathExists path then .ok (sha, fs')
        else .ok (sha, { fs' with files := fs'.files ++ [(path, zlibCompress result)] })

/-- object_read(repo, sha): resolve the sharded path with repo_file
(mkdir off); a Python None path — the shard directory being absent —
flows into os.path.isfile(None), which raises TypeError; an absent file
returns Python None; otherwise decompress the file contents and parse
via the header/dispatch path. -/
def object_read (r : Repo) (sha : List Nat) (fs : FS) :
    Except PyErr (Option ObjState) :=
  match repo_file r [strB "objects", sha.take 2, sha.drop 2] false fs with
  | .error e => .error e
  | .ok (none, _) => .error .typeError
  | .ok (some path, fs') =>
    match fs'.lookupFile path with
    | none => .ok none
    | some contents => (object_read_raw (zlibDecompress contents)).map some

/-! ## Concrete inputs used by the theorems below -/

/-- A three-slot KVLM: keys a and b, message m. -/
def exRoundtrip : Kvlm :=
  [(some (strB "a"), .one (strB "x")), (some (strB "b"), .one (strB "y")),
   (none, .one (strB "m"))]

/-- A commit-shaped KVLM with a repeated parent key after a tree key. -/
def exParents : Kvlm :=
  [(some (strB "tree"), .one (strB "t")),
   (some (strB "parent"), .many [strB "a", strB "b"]),
   (none, .one (strB "m\n"))]

/-- A repository whose gitdir is .git. -/
def exRepo : Repo := ⟨[strB ".git"]⟩

/-- A freshly initialised object store: the objects directory exists and
holds nothing. -/
def exFsInit : FS := ⟨[], [[strB ".git"], [strB ".git", strB "objects"]]⟩

/-- The well-known digest of the blob holding the bytes hello-newline. -/
def exHelloSha : List Nat := strB "ce013625030ba8dba906f756967f9e9ca394464a"

/-- The store state after writing the hello blob into exFsInit. -/
def exFsHello : FS :=
  ⟨[([strB ".git", strB "objects", strB "ce",
      strB "013625030ba8dba906f756967f9e9ca394464a"], strB "blob 6\x00hello\n")],
   [[strB ".git"], [strB ".git", strB "objects"],
    [strB ".git", strB "objects", strB "ce"]]⟩

/-- The digest of the blob holding the bytes hi. -/
def exHiSha : List Nat := strB "32f95c0d1244a78b2be1bab8de17906fabb2c4a8"

/-- The store state after writing the hi blob into an empty filesystem. -/
def exFsHi : FS :=
  ⟨[([strB ".git", strB "objects", strB "32",
      strB "f95c0d1244a78b2be1bab8de17906fabb2c4a8"], strB "blob 2\x00hi")],
   [[strB ".git"], [strB ".git", strB "objects"], [strB ".git", strB "objects", strB "32"]]⟩

/-- A store whose objects/ce shard directory exists but holds no file. -/
def exFsShardCe : FS :=
  ⟨[], [[strB ".git"], [strB ".git", strB "objects"], [strB ".git", strB "objects", strB "ce"]]⟩

/-! ## Theorems for the claims -/

/-- C6: kvlm_parse applied to the buffer key-space-first, newline,
space-second-line, newline, blank line, msg body, newline yields the key
mapped to first-newline-second-line (each newline-space continuation
collapsed to a bare newline) and the message slot holding the bytes after
the blank line including the trailing newline. -/
theorem kvlm_parse_multiline_continuation :
    kvlm_parse (strB "key first\n second line\n\nmsg body\n") =
      .ok [(some (strB "key"), .one (strB "first\nsecond line")),
           (none, .one (strB "msg body\n"))] := by decide

/-- C7 (code bug): on a buffer whose key-value field extends to the end,
the continuation scan of kvlm_parse reads one byte past the buffer.  On
the ten-byte buffer key-space-value-newline the scan finds the newline at
index 9 and dereferences raw at index 10, an out-of-bounds access
(IndexError); on key-space-value with no newline at all the parse ends in
the failed blank-line assertion instead of a clean result. -/
theorem kvlm_parse_scan_out_of_bounds :
    kvlm_parse (strB "key value\n") = .error .indexError ∧
    kvlm_parse (strB "key value") = .error .assertError := by decide

/-- C1 (code bug): the round-trip law fails because kvlm_serialize
returns from inside its key loop.  Serializing a mapping with keys a and
b and message m emits only the a line before the blank line and message,
and parsing the output back yields a mapping without the b key and with
an extra newline on the message, different from the original. -/
theorem kvlm_serialize_truncates_roundtrip :
    kvlm_serialize exRoundtrip = .ok (some (strB "a x\n\nm\n")) ∧
    kvlm_parse (strB "a x\n\nm\n") =
      .ok [(some (strB "a"), .one (strB "x")), (none, .one (strB "m\n"))] ∧
    kvlm_parse (strB "a x\n\nm\n") ≠ .ok exRoundtrip := by decide

/-- C8 (code bug): parsing a buffer with two parent lines does yield
parent mapped to the two values in source order, but serializing that
mapping back re-emits no parent line at all: the misplaced return ends
the loop after the first key (tree), so the output is the tree line, the
blank line and the message only. -/
theorem kvlm_repeated_keys_parse_and_serialize :
    kvlm_parse (strB "tree t\nparent a\nparent b\n\nm\n") = .ok exParents ∧
    kvlm_serialize exParents = .ok (some (strB "tree t\n\nm\n\n")) := by decide

/-- C10: GitObject construction with no data calls self.init() with no
argument while the inherited init declares one required data parameter,
so every variant's empty construction raises TypeError; construction from
supplied bytes runs the variant deserializer and can succeed. -/
theorem gitobject_empty_construction_raises :
    gitObjectInitMethod.extraParams = 1 ∧
    callMethod gitObjectInitMethod [] = .error .typeError ∧
    (gitObjectNew .blob none = .error .typeError ∧
     gitObjectNew .commit none = .error .typeError ∧
     gitObjectNew .tree none = .error .typeError ∧
     gitObjectNew .tag none = .error .typeError) ∧
    gitObjectNew .blob (some (strB "hi")) = .ok (.ready (.blob (strB "hi"))) := by
  decide

set_option maxRecDepth 10000 in
/-- C5 (counterexample): writing the hello blob produces the 40-character
digest ending in the hex digit a, not the 39-character value the claim
states. -/
theorem hello_blob_claimed_digest_false :
    object_write (.blob (strB "hello\n")) none exFsInit = .ok (exHelloSha, exFsInit) ∧
    exHelloSha ≠ strB "ce013625030ba8dba906f756967f9e9ca394464" := by decide

set_option maxRecDepth 10000 in
/-- C5 (amended): writing a blob holding the six bytes hello-newline over
the canonical header blob-space-6-NUL hashed with SHA-1 produces the
digest ce013625030ba8dba906f756967f9e9ca394464a, and given a repository
root it leaves a file at objects/ce/013625030ba8dba906f756967f9e9ca394464a;
reading that digest back returns the original blob. -/
theorem hello_blob_digest_end_to_end :
    object_write (.blob (strB "hello\n")) (some exRepo) exFsInit =
      .ok (exHelloSha, exFsHello) ∧
    exFsHello.isFile [strB ".git", strB "objects", strB "ce",
      strB "013625030ba8dba906f756967f9e9ca394464a"] = true ∧
    object_read exRepo exHelloSha exFsHello =
      .ok (some (.ready (.blob (strB "hello\n")))) := by decide

/-! ## Locating the header fields of a well-formed canonical buffer -/

/-- The first occurrence of the sentinel byte b after a b-free byte
string sits exactly at the end of that byte string. -/
theorem listIdx_sentinel {b : Nat} : ∀ (l r : List Nat), b ∉ l →
    listIdx (l ++ b :: r) b = some l.length := by
  intro l
  induction l with
  | nil => intro r _; simp [listIdx]
  | cons a l ih =>
    intro r h
    have ha : ¬ a = b := fun e => h (by simp [e])
    have hl : b ∉ l := fun hb => h (List.mem_cons_of_mem a hb)
    simp [listIdx, ha, ih r hl]

/-- bytes.find from position 0 lands on the sentinel byte. -/
theorem bfind_sentinel (l r : List Nat) (b : Nat) (hb : b ∉ l) :
    bfind (l ++ b :: r) b 0 = (l.length : Int) := by
  simp [bfind, listIdx_sentinel l r hb]

/-- bytes.find at a nonnegative cast position reduces to the list-level
search on the dropped suffix. -/
theorem bfind_natCast (l : List Nat) (b : Nat) (s : Nat) :
    bfind l b (s : Int) =
      match listIdx (l.drop s) b with
      | some i => ((s + i : Nat) : Int)
      | none => -1 := by
  simp only [bfind]
  rw [if_neg (by omega), Int.toNat_natCast]

/-- bytes.find from the length of a prefix skips the prefix and lands on
the sentinel after the following b-free segment. -/
theorem bfind_sentinel_from (pre mid post : List Nat) (b : Nat) (hb : b ∉ mid) :
    bfind (pre ++ (mid ++ b :: post)) b (pre.length : Int) =
      ((pre.length + mid.length : Nat) : Int) := by
  rw [bfind_natCast, List.drop_left, listIdx_sentinel mid post hb]

/-- Slicing from 0 to the length of a leading segment yields it. -/
theorem pySlice_zero_prefix (l r : List Nat) :
    pySlice (l ++ r) 0 (l.length : Int) = l := by
  simp only [pySlice, pyBound]
  rw [if_neg (by omega), if_neg (by omega)]
  simp only [Int.toNat_natCast, Int.toNat_zero, List.length_append]
  rw [min_eq_left (by omega)]
  simp [List.take_left]

/-- Slicing between the bounds of a middle segment yields it. -/
theorem pySlice_middle (l m r : List Nat) :
    pySlice (l ++ (m ++ r)) (l.length : Int) ((l.length + m.length : Nat) : Int) = m := by
  simp only [pySlice, pyBound]
  rw [if_neg (by omega), if_neg (by omega)]
  simp only [Int.toNat_natCast, List.length_append]
  rw [min_eq_left (by omega), min_eq_left (by omega)]
  rw [← List.append_assoc, List.take_left' (by simp), List.drop_left]

/-- Slicing from the length of a prefix to the end yields the rest. -/
theorem pySliceFrom_at (l r : List Nat) :
    pySliceFrom (l ++ r) (l.length : Int) = r := by
  simp only [pySliceFrom, pyBound]
  rw [if_neg (by omega)]
  simp only [Int.toNat_natCast, List.length_append]
  rw [min_eq_left (by omega), List.drop_left]

/-- A list none of whose elements satisfies p survives dropWhile p. -/
theorem dropWhile_eq_self_of_forall {p : Nat → Bool} :
    ∀ {l : List Nat}, (∀ d ∈ l, p d = false) → l.dropWhile p = l
  | [], _ => rfl
  | a :: l, h => by simp [List.dropWhile, h a (List.mem_cons_self a l)]

/-- int() applied to the space-digits slice of a well-formed header
strips the space and converts the digits. -/
theorem pyInt_space_digits (digits : List Nat) (w : Nat)
    (hd : ∀ d ∈ digits, 48 ≤ d ∧ d ≤ 57) (hv : digitsVal digits = some w) :
    pyInt (32 :: digits) = .ok (w : Int) := by
  cases digits with
  | nil => simp [digitsVal] at hv
  | cons c ds =>
    have hnw : ∀ d ∈ c :: ds, isPyWs d = false := by
      intro d hdm
      have := hd d hdm
      simp only [isPyWs, decide_eq_false_iff_not]
      omega
    have hnwr : ∀ d ∈ (c :: ds).reverse, isPyWs d = false := by
      intro d hdm; exact hnw d (List.mem_reverse.mp hdm)
    have hall : (32 :: c :: ds).all (· < 128) = true := by
      simp only [List.all_eq_true, decide_eq_true_eq]
      intro d hdm
      rcases List.mem_cons.mp hdm with h | h
      · omega
      · have := hd d h; omega
    have hc := hd c (List.mem_cons_self c ds)
    have hstrip : (((32 :: c :: ds).dropWhile isPyWs).reverse.dropWhile
        isPyWs).reverse = c :: ds := by
      rw [show (32 :: c :: ds).dropWhile isPyWs = (c :: ds).dropWhile isPyWs from by
        simp [List.dropWhile, isPyWs]]
      rw [dropWhile_eq_self_of_forall hnw, dropWhile_eq_self_of_forall hnwr,
        List.reverse_reverse]
    simp only [pyInt, hall, if_true, hstrip]
    rw [if_neg (by omega), if_neg (by omega), hv]

/-- Evaluation of the header parse of object_read on a well-formed
canonical buffer: type tag with no space or NUL byte, a space, decimal
digits, a NUL, then the payload.  The result is the length check against
the payload followed by the four-way tag dispatch. -/
theorem object_read_raw_header (fmtB digits payload : List Nat) (w : Nat)
    (h32 : 32 ∉ fmtB) (_h0 : 0 ∉ fmtB)
    (hd : ∀ d ∈ digits, 48 ≤ d ∧ d ≤ 57) (hv : digitsVal digits = some w) :
    object_read_raw (fmtB ++ 32 :: (digits ++ 0 :: payload)) =
      if w ≠ payload.length then .error .corruptObject
      else if fmtB = strB "commit" then gitObjectNew .commit (some payload)
      else if fmtB = strB "tree" then gitObjectNew .tree (some payload)
      else if fmtB = strB "tag" then gitObjectNew .tag (some payload)
      else if fmtB = strB "blob" then gitObjectNew .blob (some payload)
      else .error .unknownType := by
  have h0mid : (0 : Nat) ∉ 32 :: digits := by
    intro hm
    rcases List.mem_cons.mp hm with h | h
    · omega
    · have := hd 0 h; omega
  have hshape : fmtB ++ 32 :: (digits ++ 0 :: payload) =
      fmtB ++ ((32 :: digits) ++ 0 :: payload) := by simp
  have hx : bfind (fmtB ++ 32 :: (digits ++ 0 :: payload)) 32 0 = (fmtB.length : Int) :=
    bfind_sentinel fmtB _ 32 h32
  have hy : bfind (fmtB ++ 32 :: (digits ++ 0 :: payload)) 0 (fmtB.length : Int) =
      ((fmtB.length + (digits.length + 1) : Nat) : Int) := by
    rw [hshape]
    have := bfind_sentinel_from fmtB (32 :: digits) payload 0 h0mid
    simpa using this
  have hfmt : pySlice (fmtB ++ 32 :: (digits ++ 0 :: payload)) 0 (fmtB.length : Int) =
      fmtB := pySlice_zero_prefix fmtB _
  have hmid : pySlice (fmtB ++ 32 :: (digits ++ 0 :: payload)) (fmtB.length : Int)
      ((fmtB.length + (digits.length + 1) : Nat) : Int) = 32 :: digits := by
    rw [hshape]
    have := pySlice_middle fmtB (32 :: digits) (0 :: payload)
    simpa using this
  have hpayshape : fmtB ++ 32 :: (digits ++ 0 :: payload) =
      (fmtB ++ 32 :: (digits ++ [0])) ++ payload := by simp
  have hpay : pySliceFrom (fmtB ++ 32 :: (digits ++ 0 :: payload))
      (((fmtB.length + (digits.length + 1) : Nat) : Int) + 1) = payload := by
    rw [hpayshape]
    have hlen : (((fmtB.length + (digits.length + 1) : Nat) : Int) + 1) =
        (((fmtB ++ 32 :: (digits ++ [0])).length : Nat) : Int) := by
      simp [List.length_append]
      ring
    rw [hlen]
    exact pySliceFrom_at _ payload
  simp only [object_read_raw, hx, hy, hfmt, hmid, hpay,
    pyInt_space_digits digits w hd hv]
  by_cases hw : w = payload.length
  · rw [if_neg (show ¬ ((w : Int) ≠
        ((fmtB ++ 32 :: (digits ++ 0 :: payload)).length : Int) -
          ((fmtB.length + (digits.length + 1) : Nat) : Int) - 1) by
      simp only [List.length_append, List.length_cons, ne_eq, not_not]
      push_cast
      omega)]
    rw [if_neg (show ¬ (w ≠ payload.length) by simpa using hw)]
  · rw [if_pos (show ((w : Int) ≠
        ((fmtB ++ 32 :: (digits ++ 0 :: payload)).length : Int) -
          ((fmtB.length + (digits.length + 1) : Nat) : Int) - 1) by
      simp only [List.length_append, List.length_cons, ne_eq]
      push_cast
      omega)]
    rw [if_pos hw]

/-! ## Classifying the possible failures of the deserializers -/

/-- Python indexing fails only with IndexError. -/
theorem pyIndex_error (l : List Nat) (i : Int) (err : PyErr)
    (h : pyIndex l i = .error err) : err = .indexError := by
  unfold pyIndex at h
  dsimp only at h
  split at h <;> split at h <;>
    first
      | exact (Except.error.inj h).symm
      | exact absurd h (by simp)

/-- The continuation scan fails only with IndexError or by running out
of fuel. -/
theorem kvlmScanEnd_error (fuel : Nat) : ∀ (raw : List Nat) (e : Int) (err : PyErr),
    kvlmScanEnd fuel raw e = .error err → err = .indexError ∨ err = .outOfFuel := by
  induction fuel with
  | zero =>
    intro raw e err h
    unfold kvlmScanEnd at h
    exact Or.inr (Except.error.inj h).symm
  | succ n ih =>
    intro raw e err h
    unfold kvlmScanEnd at h
    dsimp only at h
    cases hp : pyIndex raw (bfind raw 10 (e + 1) + 1) with
    | error e' =>
      rw [hp] at h
      dsimp only at h
      exact Or.inl ((Except.error.inj h) ▸ pyIndex_error _ _ _ hp)
    | ok b =>
      rw [hp] at h
      dsimp only at h
      split at h
      · exact absurd h (by simp)
      · exact ih raw _ err h

/-- kvlm_parse fails only with IndexError, AssertionError or by running
out of fuel; in particular it never fails with the corrupt-object or
unknown-type errors of object_read. -/
theorem kvlmParseGo_error (fuel : Nat) : ∀ (raw : List Nat) (start : Int) (dct : Kvlm)
    (err : PyErr), kvlmParseGo fuel raw start dct = .error err →
    err = .indexError ∨ err = .outOfFuel ∨ err = .assertError := by
  induction fuel with
  | zero =>
    intro raw start dct err h
    unfold kvlmParseGo at h
    exact Or.inr (Or.inl (Except.error.inj h).symm)
  | succ n ih =>
    intro raw start dct err h
    unfold kvlmParseGo at h
    dsimp only at h
    by_cases hc : bfind raw 32 start < 0 ∨ bfind raw 10 start < bfind raw 32 start
    · rw [if_pos hc] at h
      by_cases hnl : bfind raw 10 start = start
      · rw [if_pos hnl] at h
        exact absurd h (by simp)
      · rw [if_neg hnl] at h
        exact Or.inr (Or.inr (Except.error.inj h).symm)
    · rw [if_neg hc] at h
      cases hs : kvlmScanEnd n raw start with
      | error e' =>
        rw [hs] at h
        dsimp only at h
        rcases kvlmScanEnd_error n raw start e' hs with h1 | h1 <;>
          rw [(Except.error.inj h)] at h1
        · exact Or.inl h1
        · exact Or.inr (Or.inl h1)
      | ok en =>
        rw [hs] at h
        dsimp only at h
        exact ih raw _ _ err h

/-- The spec-modelled tree parser fails only with MalformedObject or by
running out of fuel. -/
theorem treeParseGo_error (fuel : Nat) : ∀ (l : List Nat) (err : PyErr),
    treeParseGo fuel l = .error err → err = .malformedObject ∨ err = .outOfFuel := by
  induction fuel with
  | zero =>
    intro l err h
    cases l with
    | nil => exact absurd h (by simp [treeParseGo])
    | cons a l' =>
      unfold treeParseGo at h
      exact Or.inr (Except.error.inj h).symm
  | succ n ih =>
    intro l err h
    cases l with
    | nil => exact absurd h (by simp [treeParseGo])
    | cons a l' =>
      unfold treeParseGo at h
      cases h1 : splitByte 32 (a :: l') with
      | none =>
        rw [h1] at h
        exact Or.inl (Except.error.inj h).symm
      | some p =>
        rw [h1] at h
        simp only at h
        cases h2 : splitByte 0 p.2 with
        | none =>
          rw [h2] at h
          exact Or.inl (Except.error.inj h).symm
        | some q =>
          rw [h2] at h
          simp only at h
          split at h
          · cases h3 : treeParseGo n (q.2.drop 20) with
            | error e' =>
              rw [h3] at h
              simp only [Except.map] at h
              exact (Except.error.inj h) ▸ ih _ e' h3
            | ok es =>
              rw [h3] at h
              exact absurd h (by simp [Except.map])
          · exact Or.inl (Except.error.inj h).symm

/-- Constructing a variant from supplied payload bytes never fails with
the corrupt-object error: that error belongs to the length check alone. -/
theorem gitObjectNew_some_ne_corrupt (v : Variant) (p : List Nat) :
    gitObjectNew v (some p) ≠ .error .corruptObject := by
  intro h
  cases v <;>
    simp only [gitObjectNew, callMethod, variantDeserialize, List.length_cons,
      List.length_nil, if_pos, List.headD] at h
  case blob => exact absurd h (by simp [Except.map])
  case commit =>
    cases hk : kvlm_parse p with
    | error e' =>
      rw [hk] at h
      simp only [Except.map] at h
      have := kvlmParseGo_error (p.length + 2) p 0 [] e' hk
      rw [Except.error.inj h] at this
      simp at this
    | ok kv => rw [hk] at h; exact absurd h (by simp [Except.map])
  case tree =>
    cases hk : treeParse p with
    | error e' =>
      rw [hk] at h
      simp only [Except.map] at h
      have := treeParseGo_error p.length p e' hk
      rw [Except.error.inj h] at this
      simp at this
    | ok es => rw [hk] at h; exact absurd h (by simp [Except.map])
  case tag =>
    cases hk : kvlm_parse p with
    | error e' =>
      rw [hk] at h
      simp only [Except.map] at h
      have := kvlmParseGo_error (p.length + 2) p 0 [] e' hk
      rw [Except.error.inj h] at this
      simp at this
    | ok kv => rw [hk] at h; exact absurd h (by simp [Except.map])

/-- C2: on a decompressed buffer carrying a well-formed header — a type
tag free of space and NUL bytes, a space, a nonempty run of ASCII decimal
digits, a NUL, then the payload — object_read fails with the
corrupt-object error exactly when the declared decimal length differs
from the number of payload bytes after the NUL; with a matching length
the corrupt-object error is impossible, whatever the tag or payload. -/
theorem object_read_length_integrity (fmtB digits payload : List Nat) (w : Nat)
    (h32 : 32 ∉ fmtB) (h0 : 0 ∉ fmtB)
    (hd : ∀ d ∈ digits, 48 ≤ d ∧ d ≤ 57) (hv : digitsVal digits = some w) :
    (object_read_raw (fmtB ++ 32 :: (digits ++ 0 :: payload)) = .error .corruptObject
      ↔ w ≠ payload.length) := by
  rw [object_read_raw_header fmtB digits payload w h32 h0 hd hv]
  by_cases hw : w = payload.length
  · rw [if_neg (by simpa using hw)]
    constructor
    · intro hchain
      exfalso
      split_ifs at hchain <;>
        first
          | exact absurd hchain (gitObjectNew_some_ne_corrupt _ _)
          | simp at hchain
    · intro hww
      exact absurd hw hww
  · rw [if_pos hw]
    simp [hw]

/-- Witness for C2: the buffer blob-space-2-NUL-abc declares length 2
for a three-byte payload and object_read rejects it as corrupt. -/
theorem object_read_length_integrity_witness :
    object_read_raw (strB "blob" ++ 32 :: ([50] ++ 0 :: strB "abc")) =
      .error .corruptObject :=
  (object_read_length_integrity (strB "blob") [50] (strB "abc") 2
    (by decide) (by decide) (by decide) (by decide)).mpr (by decide)

/-- C3: on a buffer passing the length check, a type tag equal to one of
commit, tree, tag or blob makes object_read return exactly the result of
applying that variant's deserializer to the payload bytes (the dispatch
step itself never fails on a known tag), and any other tag fails with the
unknown-type error. -/
theorem object_read_typetag_dispatch (fmtB digits payload : List Nat) (w : Nat)
    (h32 : 32 ∉ fmtB) (h0 : 0 ∉ fmtB)
    (hd : ∀ d ∈ digits, 48 ≤ d ∧ d ≤ 57) (hv : digitsVal digits = some w)
    (hw : w = payload.length) :
    (∀ v : Variant, fmtB = variantFmt v →
       object_read_raw (fmtB ++ 32 :: (digits ++ 0 :: payload)) =
         (callMethod (variantDeserialize v) [payload]).map ObjState.ready) ∧
    ((∀ v : Variant, ¬ fmtB = variantFmt v) →
       object_read_raw (fmtB ++ 32 :: (digits ++ 0 :: payload)) = .error .unknownType) := by
  rw [object_read_raw_header fmtB digits payload w h32 h0 hd hv]
  rw [if_neg (by simpa using hw)]
  constructor
  · intro v hvf
    cases v
    case commit =>
      rw [hvf, if_pos (show variantFmt Variant.commit = strB "commit" by decide)]
      rfl
    case tree =>
      rw [hvf, if_neg (show ¬ variantFmt Variant.tree = strB "commit" by decide),
        if_pos (show variantFmt Variant.tree = strB "tree" by decide)]
      rfl
    case tag =>
      rw [hvf, if_neg (show ¬ variantFmt Variant.tag = strB "commit" by decide),
        if_neg (show ¬ variantFmt Variant.tag = strB "tree" by decide),
        if_pos (show variantFmt Variant.tag = strB "tag" by decide)]
      rfl
    case blob =>
      rw [hvf, if_neg (show ¬ variantFmt Variant.blob = strB "commit" by decide),
        if_neg (show ¬ variantFmt Variant.blob = strB "tree" by decide),
        if_neg (show ¬ variantFmt Variant.blob = strB "tag" by decide),
        if_pos (show variantFmt Variant.blob = strB "blob" by decide)]
      rfl
  · intro hall
    have h1 : ¬ fmtB = strB "commit" := hall .commit
    have h2 : ¬ fmtB = strB "tree" := hall .tree
    have h3 : ¬ fmtB = strB "tag" := hall .tag
    have h4 : ¬ fmtB = strB "blob" := hall .blob
    rw [if_neg h1, if_neg h2, if_neg h3, if_neg h4]

/-- Witness for C3: the buffer tag-space-0-NUL with an empty payload
dispatches to the tag variant's deserializer. -/
theorem object_read_typetag_dispatch_witness :
    object_read_raw (strB "tag" ++ 32 :: ([48] ++ 0 :: [])) =
      (callMethod (variantDeserialize .tag) [([] : List Nat)]).map ObjState.ready :=
  (object_read_typetag_dispatch (strB "tag") [48] [] 0
    (by decide) (by decide) (by decide) (by decide) (by decide)).1 .tag rfl

/-! ## Write idempotence and the no-overwrite policy -/

/-- A nonempty path is among its own ancestors. -/
theorem pathAncestors_self : ∀ (p : FPath), p ≠ [] → p ∈ pathAncestors p := by
  intro p
  induction p with
  | nil => intro h; exact absurd rfl h
  | cons a rest ih =>
    intro _
    cases rest with
    | nil => simp [pathAncestors]
    | cons b r =>
      simp only [pathAncestors, List.mem_cons]
      right
      exact List.mem_map.mpr ⟨b :: r, ih (by simp), rfl⟩

/-- os.makedirs leaves the requested directory in existence. -/
theorem isDir_makedirs_self (fs : FS) (p : FPath) (hp : p ≠ []) :
    (fs.makedirs p).isDir p = true := by
  unfold FS.makedirs FS.isDir
  simp only [List.any_append, Bool.or_eq_true]
  by_cases hd : fs.dirs.any (fun q => q = p) = true
  · exact Or.inl hd
  · right
    simp only [List.any_eq_true, decide_eq_true_eq]
    refine ⟨p, List.mem_filter.mpr ⟨pathAncestors_self p hp, ?_⟩, rfl⟩
    simp only [Bool.not_eq_true']
    exact Bool.eq_false_iff.mpr hd

/-- Appending a file leaves the directory set unchanged. -/
theorem isDir_addFile (fs : FS) (p path : FPath) (c : List Nat) :
    (FS.mk (fs.files ++ [(path, c)]) fs.dirs).isDir p = fs.isDir p := rfl

/-- The path of a just-appended file exists. -/
theorem pathExists_addFile (fs : FS) (path : FPath) (c : List Nat) :
    (FS.mk (fs.files ++ [(path, c)]) fs.dirs).pathExists path = true := by
  unfold FS.pathExists FS.isFile
  simp

/-- repo_dir with mkdir returns the full path and leaves it a directory,
whatever state it starts from. -/
theorem repo_dir_mkdir_spec (r : Repo) (p : List (List Nat)) (fs fs2 : FS)
    (q : Option FPath) (hp : p ≠ [])
    (h : repo_dir r p true fs = .ok (q, fs2)) :
    q = some (repo_path r p) ∧ fs2.isDir (repo_path r p) = true := by
  unfold repo_dir at h
  dsimp only at h
  by_cases he : fs.pathExists (repo_path r p) = true
  · rw [if_pos he] at h
    by_cases hd : fs.isDir (repo_path r p) = true
    · rw [if_pos hd] at h
      obtain ⟨hq, hfs⟩ := Prod.mk.inj (Except.ok.inj h)
      exact ⟨hq.symm, hfs ▸ hd⟩
    · rw [if_neg hd] at h
      exact absurd h (by simp)
  · rw [if_neg he] at h
    rw [if_pos rfl] at h
    obtain ⟨hq, hfs⟩ := Prod.mk.inj (Except.ok.inj h)
    refine ⟨hq.symm, hfs ▸ ?_⟩
    exact isDir_makedirs_self fs (repo_path r p) (by
      intro hnil
      unfold repo_path at hnil
      exact hp (List.append_eq_nil.mp hnil).2)

/-- repo_dir short-circuits to success on an existing directory, with or
without mkdir. -/
theorem repo_dir_of_isDir (r : Repo) (p : List (List Nat)) (mk : Bool) (fs : FS)
    (h : fs.isDir (repo_path r p) = true) :
    repo_dir r p mk fs = .ok (some (repo_path r p), fs) := by
  unfold repo_dir
  dsimp only
  rw [if_pos (show fs.pathExists (repo_path r p) = true by
    unfold FS.pathExists
    rw [h]
    simp), if_pos h]

/-- repo_file with mkdir returns the full path and leaves the parent
directory in existence. -/
theorem repo_file_mkdir_spec (r : Repo) (p : List (List Nat)) (fs fs2 : FS)
    (q : Option FPath) (hp : p.dropLast ≠ [])
    (h : repo_file r p true fs = .ok (q, fs2)) :
    q = some (repo_path r p) ∧ fs2.isDir (repo_path r p.dropLast) = true := by
  unfold repo_file at h
  cases hd : repo_dir r p.dropLast true fs with
  | error e =>
    rw [hd] at h
    exact absurd h (by simp)
  | ok pr =>
    rw [hd] at h
    obtain ⟨q', fs'⟩ := pr
    rcases repo_dir_mkdir_spec r p.dropLast fs fs' q' hp hd with ⟨hq, hdir⟩
    subst hq
    dsimp only at h
    obtain ⟨hq2, hfs⟩ := Prod.mk.inj (Except.ok.inj h)
    exact ⟨hq2.symm, hfs ▸ hdir⟩

/-- repo_file short-circuits to success when the parent directory already
exists, leaving the filesystem untouched. -/
theorem repo_file_of_parent_isDir (r : Repo) (p : List (List Nat)) (mk : Bool)
    (fs : FS) (h : fs.isDir (repo_path r p.dropLast) = true) :
    repo_file r p mk fs = .ok (some (repo_path r p), fs) := by
  unfold repo_file
  rw [repo_dir_of_isDir r p.dropLast mk fs h]

/-- C4: a successful object_write determines the digest and leaves the
object file in place, so a second write of an equal object returns the
same digest and leaves the filesystem byte-for-byte unchanged — the
existing path is never rewritten — and a write with no repository
returns that digest with no filesystem effect at all. -/
theorem object_write_idempotent_no_overwrite (obj1 obj2 : Obj) (r : Repo)
    (fs fs1 : FS) (sha : List Nat) (heq : obj1 = obj2)
    (h1 : object_write obj1 (some r) fs = .ok (sha, fs1)) :
    object_write obj2 (some r) fs1 = .ok (sha, fs1) ∧
    (∀ fs0 : FS, object_write obj2 none fs0 = .ok (sha, fs0)) := by
  subst heq
  unfold object_write at h1 ⊢
  cases hser : serializeObj obj1 with
  | error e =>
    rw [hser] at h1
    exact absurd h1 (by simp)
  | ok data =>
    rw [hser] at h1
    dsimp only at h1 ⊢
    cases hrf : repo_file r [strB "objects",
        (sha1Hex (objFmt obj1 ++ 32 :: (strB (toString data.length) ++ 0 :: data))).take 2,
        (sha1Hex (objFmt obj1 ++ 32 :: (strB (toString data.length) ++ 0 :: data))).drop 2]
        true fs with
    | error e =>
      rw [hrf] at h1
      exact absurd h1 (by simp)
    | ok pr =>
      rw [hrf] at h1
      obtain ⟨q', fs'⟩ := pr
      rcases repo_file_mkdir_spec r _ fs fs' q' (by simp [List.dropLast]) hrf with ⟨hq, hdir⟩
      subst hq
      dsimp only at h1
      by_cases hex : fs'.pathExists (repo_path r [strB "objects",
          (sha1Hex (objFmt obj1 ++ 32 :: (strB (toString data.length) ++ 0 :: data))).take 2,
          (sha1Hex (objFmt obj1 ++ 32 :: (strB (toString data.length) ++ 0 :: data))).drop 2]) = true
      · rw [if_pos hex] at h1
        have hpair := Except.ok.inj h1
        have hsha : sha1Hex (objFmt obj1 ++ 32 :: (strB (toString data.length) ++ 0 :: data)) = sha :=
          congrArg Prod.fst hpair
        have hfs : fs' = fs1 := congrArg Prod.snd hpair
        subst hfs
        constructor
        · rw [repo_file_of_parent_isDir r _ true fs' hdir]
          dsimp only
          rw [if_pos hex, hsha]
        · intro fs0
          rw [hsha]
      · rw [if_neg hex] at h1
        have hpair := Except.ok.inj h1
        have hsha : sha1Hex (objFmt obj1 ++ 32 :: (strB (toString data.length) ++ 0 :: data)) = sha :=
          congrArg Prod.fst hpair
        have hfs : FS.mk (fs'.files ++ [(repo_path r [strB "objects",
            (sha1Hex (objFmt obj1 ++ 32 :: (strB (toString data.length) ++ 0 :: data))).take 2,
            (sha1Hex (objFmt obj1 ++ 32 :: (strB (toString data.length) ++ 0 :: data))).drop 2],
            zlibCompress (objFmt obj1 ++ 32 :: (strB (toString data.length) ++ 0 :: data)))]) fs'.dirs = fs1 :=
          congrArg Prod.snd hpair
        constructor
        · rw [repo_file_of_parent_isDir r _ true fs1 (by rw [← hfs]; exact hdir)]
          dsimp only
          rw [if_pos (by rw [← hfs]; exact pathExists_addFile fs' _ _), hsha]
        · intro fs0
          rw [hsha]

set_option maxRecDepth 10000 in
/-- Witness for C4: after the hi blob has been written, writing it again
returns the same digest and leaves the store unchanged. -/
theorem object_write_idempotent_no_overwrite_witness :
    object_write (.blob (strB "hi")) (some exRepo) exFsHi = .ok (exHiSha, exFsHi) :=
  (object_write_idempotent_no_overwrite (.blob (strB "hi")) (.blob (strB "hi"))
    exRepo ⟨[], []⟩ exFsHi exHiSha rfl (by decide)).1

/-! ## Absence of a stored object -/

/-- repo_dir without mkdir returns Python None on an absent path. -/
theorem repo_dir_absent_nomkdir (r : Repo) (p : List (List Nat)) (fs : FS)
    (h : fs.pathExists (repo_path r p) = false) :
    repo_dir r p false fs = .ok (none, fs) := by
  unfold repo_dir
  dsimp only
  rw [if_neg (by simp [h]), if_neg (by simp)]

/-- C9 (counterexample): with the objects/ce shard directory absent, the
sharded path resolution returns Python None and os.path.isfile(None)
raises TypeError, so object_read fails with TypeError instead of
surfacing the absent-object result None. -/
theorem object_read_shard_dir_absent_typeerror :
    object_read exRepo exHelloSha exFsInit = .error .typeError ∧
    object_read exRepo exHelloSha exFsInit ≠ .ok none := by decide

/-- C9 (amended): when the shard directory exists but the object file is
absent, object_read returns the absent-object result None; when the
shard directory itself is absent, object_read instead fails with the
TypeError arising from os.path.isfile(None). -/
theorem object_read_absence_behavior (r : Repo) (sha : List Nat) (fs : FS) :
    (fs.isDir (repo_path r [strB "objects", sha.take 2]) = true →
     fs.lookupFile (repo_path r [strB "objects", sha.take 2, sha.drop 2]) = none →
     object_read r sha fs = .ok none) ∧
    (fs.pathExists (repo_path r [strB "objects", sha.take 2]) = false →
     object_read r sha fs = .error .typeError) := by
  have hdl : ([strB "objects", sha.take 2, sha.drop 2] : List (List Nat)).dropLast =
      [strB "objects", sha.take 2] := by simp [List.dropLast]
  constructor
  · intro hdir hlook
    unfold object_read
    rw [repo_file_of_parent_isDir r [strB "objects", sha.take 2, sha.drop 2] false fs
      (by rw [hdl]; exact hdir)]
    dsimp only
    rw [hlook]
  · intro habs
    unfold object_read repo_file
    rw [hdl, repo_dir_absent_nomkdir r [strB "objects", sha.take 2] fs habs]

/-- Witness for C9 amended: the hello digest read from a store whose ce
shard directory is empty yields None, and read from a store without the
shard directory raises TypeError. -/
theorem object_read_absence_behavior_witness :
    object_read exRepo exHelloSha exFsShardCe = .ok none ∧
    object_read exRepo exHelloSha exFsInit = .error .typeError :=
  ⟨(object_read_absence_behavior exRepo exHelloSha exFsShardCe).1 (by decide) (by decide),
   (object_read_absence_behavior exRepo exHelloSha exFsInit).2 (by decide)⟩
